import Mathlib

/-!
Verification of the affectimo lexical scoring engine (src/index.js, v3.0.0)
against its natural-language specification.

The engine is shallowly embedded: JavaScript values that flow through the
options object are modelled by the inductive `JSVal`, the option-defaulting
block of `affectimo` (src/index.js lines 78-104) by `normalizeOpts`, and the
scoring pipeline (lines 112-179) by `affectimo` below.  External collaborator
modules that are not part of this repository (the tokenizer, the dialect
translator and the n-gram generator) are abstracted as fields of `Env`; the
lex-helpers aggregation and formatting functions, whose source is not in the
repository either, are modelled from the specification, with the aggregation
branch structure taken from the in-repository `calcLex` (src/unnamed/part_003).
-/

/-- JavaScript numbers: NaN, the two infinities, and finite values modelled
as rationals (the engine only ever adds, multiplies and divides decimal
lexicon weights, so rationals are exact here). -/
inductive JSNum
  | nan
  | posInf
  | negInf
  | fin (q : ℚ)
deriving DecidableEq, Repr

mutual
/-- JavaScript values as they appear in the options object and in the input
position of `affectimo`: strings, numbers, booleans, arrays, undefined and
null.  Arrays carry a `JSList` (a mutually defined list) so that decidable
equality can be derived. -/
inductive JSVal
  | str (s : String)
  | num (n : JSNum)
  | boolean (b : Bool)
  | arrV (l : JSList)
  | undef
  | null
deriving DecidableEq, Repr
/-- Lists of JavaScript values, mutually defined with `JSVal`. -/
inductive JSList
  | nil
  | cons (hd : JSVal) (tl : JSList)
deriving DecidableEq, Repr
end

/-- Convert a `JSList` to an ordinary Lean list. -/
def JSList.toList : JSList → List JSVal
  | .nil => []
  | .cons a l => a :: l.toList

/-- Build a `JSList` from an ordinary Lean list. -/
def JSList.ofList : List JSVal → JSList
  | [] => .nil
  | a :: l => .cons a (JSList.ofList l)

/-- Convenience constructor for JavaScript array values. -/
def JSVal.arr (l : List JSVal) : JSVal := .arrV (JSList.ofList l)

/-- JavaScript truthiness, as used by the checks on the input string and on
the suppressLog and wcGrams options in src/index.js. -/
def jsTruthy : JSVal → Bool
  | .str s => s ≠ ""
  | .num .nan => false
  | .num (.fin q) => q ≠ 0
  | .num _ => true
  | .boolean b => b
  | .arrV _ => true
  | .undef => false
  | .null => false

/-- Does the value have JavaScript type number, i.e. typeof v is number. -/
def isNumV : JSVal → Bool
  | .num _ => true
  | _ => false

/-- Is the value an array, i.e. Array.isArray(v). -/
def isArrV : JSVal → Bool
  | .arrV _ => true
  | _ => false

/-- JavaScript whitespace characters relevant to trim: space, tab, newline
and carriage return cover every input the engine meets. -/
def isWS (c : Char) : Bool := c = ' ' || c = '\t' || c = '\n' || c = '\r'

/-- Trim on character lists, structurally recursive so that concrete
evaluations reduce inside the kernel. -/
def trimChars (l : List Char) : List Char :=
  ((l.dropWhile isWS).reverse.dropWhile isWS).reverse

/-- Modelled from the spec: String.prototype.trim. -/
def jsTrim (s : String) : String := String.mk (trimChars s.data)

/-- Modelled from the spec: String.prototype.toLowerCase, as a character
map (ASCII lowering is all the engine needs). -/
def lowerStr (s : String) : String := String.mk (s.data.map Char.toLower)

/-- Digits of a decimal literal folded into a natural number. -/
def digitsToNat (l : List Char) : ℕ :=
  l.foldl (fun a c => a * 10 + (c.toNat - 48)) 0

/-- All characters are decimal digits. -/
def allDigits (l : List Char) : Bool := l.all (fun c => c.isDigit)

/-- Modelled from the spec: the JavaScript Number(string) coercion used by
src/index.js lines 87-88 on the min and max options.  Only the fragment the
engine can meet is modelled: an optional sign, a plain decimal literal with
at most one decimal point, the empty string (which coerces to 0) and the
Infinity literals; everything else coerces to NaN. -/
def parseDecimal (l : List Char) : Option ℚ :=
  let intPart := l.takeWhile (fun c => c ≠ '.')
  let rest := l.dropWhile (fun c => c ≠ '.')
  match rest with
  | [] => if intPart ≠ [] && allDigits intPart then some (digitsToNat intPart) else none
  | _ :: frac =>
    if (intPart ≠ [] || frac ≠ []) && allDigits intPart && allDigits frac
        && frac.all (fun c => c ≠ '.') then
      some ((digitsToNat intPart : ℚ) + (digitsToNat frac : ℚ) / 10 ^ frac.length)
    else none

/-- Modelled from the spec: Number() on a trimmed string. -/
def jsNumOfString (s : String) : JSNum :=
  let t := jsTrim s
  if t = "" then .fin 0
  else if t = "Infinity" || t = "+Infinity" then .posInf
  else if t = "-Infinity" then .negInf
  else
    match t.data with
    | '-' :: l => match parseDecimal l with
      | some q => .fin (-q)
      | none => .nan
    | '+' :: l => match parseDecimal l with
      | some q => .fin q
      | none => .nan
    | l => match parseDecimal l with
      | some q => .fin q
      | none => .nan

/-- Modelled from the spec: the JavaScript Number(v) coercion.  Array
coercion (which goes through the string representation) is not modelled
because the engine never reaches it. -/
def jsToNumber : JSVal → JSNum
  | .num n => n
  | .str s => jsNumOfString s
  | .boolean b => .fin (if b then 1 else 0)
  | .null => .fin 0
  | .undef => .nan
  | .arrV _ => .nan

/-- Modelled from the spec: the JavaScript String(v) coercion used by
str.toString() in src/index.js line 118.  Only integers are rendered among
finite numbers, which covers every value the engine coerces in the claims;
null is unreachable on the coercion path because null is falsy. -/
def jsToString : JSVal → String
  | .str s => s
  | .boolean b => if b then "true" else "false"
  | .num .nan => "NaN"
  | .num .posInf => "Infinity"
  | .num .negInf => "-Infinity"
  | .num (.fin q) => if q.den = 1 then toString q.num else toString q
  | .undef => "undefined"
  | .null => "null"
  | .arrV _ => ""

/-- JavaScript comparison v > q against a number literal: the left side is
coerced with Number(), and any comparison with NaN is false.  Used for the
logs > 1 and logs > 0 guards. -/
def jsGt (v : JSVal) (q : ℚ) : Bool :=
  match jsToNumber v with
  | .fin x => q < x
  | .posInf => true
  | _ => false

/-- JavaScript comparison wordcount < n from src/index.js line 135, where
wordcount is a plain number and n is an arbitrary element of the nGrams
array; a NaN coercion makes the comparison false. -/
def jsLtWc (wc : ℕ) (v : JSVal) : Bool :=
  match jsToNumber v with
  | .fin x => (wc : ℚ) < x
  | .posInf => true
  | _ => false

/-- JavaScript comparison weight > min for the matcher weight filter. -/
def jsWeightGtMin (w : ℚ) (mn : JSVal) : Bool :=
  match jsToNumber mn with
  | .fin x => x < w
  | .negInf => true
  | _ => false

/-- JavaScript comparison weight < max for the matcher weight filter. -/
def jsWeightLtMax (w : ℚ) (mx : JSVal) : Bool :=
  match jsToNumber mx with
  | .fin x => w < x
  | .posInf => true
  | _ => false

/-- Warnings and errors the engine can log to the console.  They are
modelled as events rather than formatted strings: the paths in
src/index.js are the no-string warning (line 114), the no-tokens warning
(line 127), the non-array nGrams warning (line 96), the skipped n-gram
order error (lines 136 and 142) and the invalid output warning (line 174). -/
inductive Warning
  | nGramsNotArray
  | noString
  | noTokens
  | nGramSkip (n : JSVal) (wc : ℕ)
  | invalidOutput (s : String)
deriving DecidableEq, Repr

/-- Emit a single warning when the guard holds. -/
def warnIf (b : Bool) (w : Warning) : List Warning := if b then [w] else []

/-- The options object passed to `affectimo`.  Each field holds the
JavaScript value of that property, with undefined standing for an absent
property. -/
structure Opts where
  encoding : JSVal := .undef
  locale : JSVal := .undef
  logs : JSVal := .undef
  suppressLog : JSVal := .undef
  max : JSVal := .undef
  min : JSVal := .undef
  nGrams : JSVal := .undef
  output : JSVal := .undef
  places : JSVal := .undef
  sortBy : JSVal := .undef
  wcGrams : JSVal := .undef
deriving DecidableEq, Repr

/-- The JavaScript defaulting idiom (typeof x !== undefined) ? x : d. -/
def defVal (v d : JSVal) : JSVal :=
  match v with
  | .undef => d
  | _ => v

/-- The option-defaulting block of src/index.js lines 78-104, translated
statement by statement.  The block mutates the caller object in place; the
returned `Opts` is the state of that object after the block (no later code
writes to it), paired with the warnings the block logs.  Three quirks of
the source are preserved verbatim: line 79 defaults encoding to the string
US, line 80 assigns the logs value (or 3) to locale, and lines 90-91 test
typeof after a Number() coercion, which always yields type number, so the
coerced min and max are unconditionally replaced by the infinities. -/
def normalizeOpts (o : Opts) : Opts × List Warning :=
  let encoding := defVal o.encoding (.str "US")
  let locale := defVal o.logs (.num (.fin 3))
  let logs0 := defVal o.logs (.num (.fin 3))
  let logs := if jsTruthy o.suppressLog then .num (.fin 0) else logs0
  let max0 := defVal o.max (.num .posInf)
  let min0 := defVal o.min (.num .negInf)
  let coerce := !(isNumV max0 && isNumV min0)
  let mn :=
    if coerce then
      (if !(isNumV (JSVal.num (jsToNumber min0))) then JSVal.num (jsToNumber min0)
       else .num .negInf)
    else min0
  let mx :=
    if coerce then
      (if !(isNumV (JSVal.num (jsToNumber max0))) then JSVal.num (jsToNumber max0)
       else .num .posInf)
    else max0
  let ng0 := defVal o.nGrams (.arr [.num (.fin 2), .num (.fin 3)])
  let ng := if isArrV ng0 then ng0 else .arr [.num (.fin 2), .num (.fin 3)]
  let ws := if isArrV ng0 then [] else warnIf (jsGt logs 1) .nGramsNotArray
  ({ encoding := encoding, locale := locale, logs := logs,
     suppressLog := o.suppressLog, max := mx, min := mn, nGrams := ng,
     output := defVal o.output (.str "lex"),
     places := defVal o.places (.num (.fin 9)),
     sortBy := defVal o.sortBy (.str "freq"),
     wcGrams := defVal o.wcGrams (.boolean false) }, ws)


/-- The fixed lexicon shape: two categories mapping terms to weights
(spec section 3; the data file itself is outside the core). -/
structure Lexicon where
  AFFECT : List (String × ℚ)
  INTENSITY : List (String × ℚ)

/-- One match record (term, occurrence count, weight), as produced by the
matcher for a term of a category found in the token pool. -/
structure MatchRec where
  term : String
  count : ℕ
  weight : ℚ
deriving DecidableEq, Repr

/-- Per-category match records. -/
structure Matches where
  AFFECT : List MatchRec
  INTENSITY : List MatchRec
deriving DecidableEq, Repr

/-- Modelled from the spec: lex-helpers itemCount (the module source is not
in the repository).  Reduces the token list to per-term occurrence counts,
keeping first-occurrence order (spec section 4.2: term to count). -/
def itemCount (toks : List String) : List (String × ℕ) :=
  (toks.foldl (fun acc t => if acc.contains t then acc else acc ++ [t]) []).map
    (fun t => (t, toks.count t))

/-- Modelled from the spec: the matcher scan of one lexicon category (spec
section 4.3), with the exclusive weight filter min < weight < max that the
in-repository getMatches of src/unnamed/part_003 also uses (weight >
threshold there).  Emits (term, pool count, weight) for every category term
present in the pool. -/
def matchCategory (pool : List (String × ℕ)) (cat : List (String × ℚ))
    (mn mx : JSVal) : List MatchRec :=
  cat.filterMap (fun tw =>
    match pool.lookup tw.1 with
    | some c =>
      if jsWeightGtMin tw.2 mn && jsWeightLtMax tw.2 mx then
        some ⟨tw.1, c, tw.2⟩
      else none
    | none => none)

/-- Modelled from the spec: lex-helpers getMatches as called at
src/index.js line 148, category by category. -/
def getMatches (pool : List (String × ℕ)) (lex : Lexicon) (mn mx : JSVal) :
    Matches :=
  ⟨matchCategory pool lex.AFFECT mn mx, matchCategory pool lex.INTENSITY mn mx⟩

/-- The encoding test of the in-repository calcLex (src/unnamed/part_003
line 144): enc === binary, or enc loosely equal to null (null or
undefined), selects the binary sum; anything else selects the frequency
formula. -/
def binaryEnc : JSVal → Bool
  | .str s => s == "binary"
  | .null => true
  | .undef => true
  | _ => false

/-- The aggregation loop of calcLex from src/unnamed/part_003 lines
138-154: binary adds each weight once, frequency adds (count / wordcount)
weight, and the intercept is added afterwards.  The division by a zero
wordcount is never reached in the claims proved below (a zero wordcount
forces an empty pool and hence an empty record list). -/
def calcLex (obj : List MatchRec) (wc : ℕ) (int : ℚ) (enc : JSVal) : ℚ :=
  obj.foldl
    (fun lex r =>
      if binaryEnc enc then lex + r.weight
      else lex + ((r.count : ℚ) / (wc : ℚ)) * r.weight)
    0 + int

/-- Half-away-from-zero rounding to an integer (spec section 4.4). -/
def roundHalfAway (q : ℚ) : ℤ :=
  if 0 ≤ q then ⌊q + 1 / 2⌋ else -⌊-q + 1 / 2⌋

/-- Rounding to a number of decimal places (spec section 4.4). -/
def roundPlaces (places : ℕ) (q : ℚ) : ℚ :=
  (roundHalfAway (q * 10 ^ places) : ℚ) / 10 ^ places

/-- Extract the decimal-place count from the places option.  The
JavaScript toFixed only accepts non-negative integers, which is the only
shape the claims exercise; other values are mapped to 0. -/
def placesOf : JSVal → ℕ
  | .num (.fin q) => if q.den = 1 && 0 ≤ q.num then q.num.toNat else 0
  | _ => 0

/-- The AFFECT intercept constant from src/index.js line 151. -/
def affectIntercept : ℚ := 5037104721 / 1000000000

/-- The INTENSITY intercept constant from src/index.js line 152. -/
def intensityIntercept : ℚ := 2399762631 / 1000000000

/-- The aggregated score result: one scalar per category. -/
structure LexVals where
  AFFECT : ℚ
  INTENSITY : ℚ
deriving DecidableEq, Repr

/-- Modelled from the spec: lex-helpers doLex as called at src/index.js
lines 166 and 178 (aggregate each category, add its intercept, round to
the configured places; spec section 4.4).  The aggregation body is the
in-repository calcLex above. -/
def doLex (m : Matches) (places : JSVal) (enc : JSVal) (wc : ℕ) : LexVals :=
  ⟨roundPlaces (placesOf places) (calcLex m.AFFECT wc affectIntercept enc),
   roundPlaces (placesOf places) (calcLex m.INTENSITY wc intensityIntercept enc)⟩

/-- One formatted match row [term, count, weight, contribution] (spec
section 4.5). -/
structure MatchEntry where
  term : String
  count : ℕ
  weight : ℚ
  lexValue : ℚ
deriving DecidableEq, Repr

/-- Modelled from the spec: the per-term contribution the chosen encoding
would have added, rounded to the configured precision (spec section 4.5). -/
def contribOf (r : MatchRec) (enc : JSVal) (wc : ℕ) (places : ℕ) : ℚ :=
  roundPlaces places
    (if binaryEnc enc then r.weight else ((r.count : ℚ) / (wc : ℚ)) * r.weight)

/-- The sort key selected by the sortBy option: weight, lex (contribution)
or the default freq (count); spec section 4.5. -/
def sortKey (sb : JSVal) (e : MatchEntry) : ℚ :=
  match sb with
  | .str "weight" => e.weight
  | .str "lex" => e.lexValue
  | _ => (e.count : ℚ)

/-- Stable descending insertion: x goes before the first element with a
strictly smaller key, so ties keep matcher emission order. -/
def insertDescBy (key : MatchEntry → ℚ) (x : MatchEntry) :
    List MatchEntry → List MatchEntry
  | [] => [x]
  | y :: ys => if key y < key x then x :: y :: ys else y :: insertDescBy key x ys

/-- Stable descending insertion sort. -/
def sortDescBy (key : MatchEntry → ℚ) (l : List MatchEntry) : List MatchEntry :=
  l.foldr (insertDescBy key) []

/-- Modelled from the spec: lex-helpers prepareMatches (spec section 4.5):
format each record and sort descending by the selected key, stably. -/
def prepareMatches (obj : List MatchRec) (sb : JSVal) (wc : ℕ) (places : ℕ)
    (enc : JSVal) : List MatchEntry :=
  sortDescBy (sortKey sb)
    (obj.map (fun r => ⟨r.term, r.count, r.weight, contribOf r enc wc places⟩))

/-- Per-category formatted matches. -/
structure MatchOut where
  AFFECT : List MatchEntry
  INTENSITY : List MatchEntry
deriving DecidableEq, Repr

/-- Modelled from the spec: lex-helpers doMatches as called at
src/index.js lines 157 and 162. -/
def doMatches (m : Matches) (sb : JSVal) (wc : ℕ) (places : JSVal)
    (enc : JSVal) : MatchOut :=
  ⟨prepareMatches m.AFFECT sb wc (placesOf places) enc,
   prepareMatches m.INTENSITY sb wc (placesOf places) enc⟩

/-- Case-insensitive substring test: the truthiness of
s.match(new RegExp(pat, gi)) for a literal pattern without regex
metacharacters, as used by the output dispatch at src/index.js lines 155,
158 and 173. -/
def containsCI (s pat : String) : Bool :=
  (List.range (s.data.length + 1)).any
    (fun i => (pat.data.map Char.toLower).isPrefixOf
      ((s.data.map Char.toLower).drop i))


/-- The possible results of a call to affectimo: null (explicit early
returns), undefined (falling off the end of the function, which is what the
full branch does), a thrown TypeError (calling .match on a non-string
output option), the score values object, or the formatted matches object. -/
inductive Output
  | nullR
  | undefR
  | exnR
  | vals (v : LexVals)
  | matched (m : MatchOut)
deriving DecidableEq, Repr

/-- The external collaborators consumed by src/index.js, abstracted as
functions: happynodetokenizer (returning null, modelled as none, when it
finds no tokens), the uk2us pass of british_american_translate, and
arr2string composed with simplengrams for one n-gram order. -/
structure Env where
  tok : String → Option (List String)
  uk2us : String → String
  ngrams : String → JSVal → List String

/-- The input preparation of src/index.js lines 118-122: coerce to string,
lowercase, trim, then translate when the (normalized) locale is GB. -/
def prepared (env : Env) (o : Opts) (strV : JSVal) : String :=
  let s0 := match strV with
    | .str s => s
    | v => jsToString v
  let s := jsTrim (lowerStr s0)
  match o.locale with
  | .str "GB" => env.uk2us s
  | _ => s

/-- One iteration of the async.each loop over n-gram orders (src/index.js
lines 134-140): a skipped order records its error (only the first error
reaches the final callback, because async wraps it in once), a processed
order prepends its n-grams to the token list.  The async library
dispatches all array items synchronously, so the whole loop completes
before the matcher runs. -/
def ngramStep (env : Env) (s : String) (wc : ℕ)
    (acc : List String × Option Warning) (n : JSVal) :
    List String × Option Warning :=
  if jsLtWc wc n then (acc.1, acc.2 <|> some (.nGramSkip n wc))
  else (env.ngrams s n ++ acc.1, acc.2)

/-- The full async.each loop over the nGrams array. -/
def ngramLoop (env : Env) (s : String) (wc : ℕ) (l : List JSVal)
    (toks : List String) : List String × Option Warning :=
  l.foldl (ngramStep env s wc) (toks, none)

/-- Token pool construction from the normalized nGrams option.  After
normalization nGrams is always an array (line 94 forces [2, 3] otherwise),
and arrays are always truthy, so the line 133 guard always takes the loop. -/
def pooled (env : Env) (o : Opts) (s : String) (toks : List String) :
    List String × Option Warning :=
  match o.nGrams with
  | .arrV l => ngramLoop env s toks.length l.toList toks
  | _ => (toks, none)

/-- The wordcount used for scoring: the pre-n-gram token count, or the
merged pool length when wcGrams is truthy (src/index.js lines 131, 146). -/
def wcOf (o : Opts) (toks toks2 : List String) : ℕ :=
  if jsTruthy o.wcGrams then toks2.length else toks.length

/-- The console.error of the async.each completion callback
(src/index.js line 142), applied to the first recorded skip error. -/
def skipWarn (o : Opts) : Option Warning → List Warning
  | some w => warnIf (jsGt o.logs 0) w
  | none => []

/-- The output dispatch of src/index.js lines 155-179.  A string output
containing matches (case-insensitively) returns the formatted matches; one
containing full starts an async.parallel whose completion callback returns
from the callback, not from affectimo, so the function falls through and
yields undefined; anything else returns the score values, warning when the
string does not contain lex.  A non-string output raises a TypeError when
.match is called on it. -/
def dispatchOut (o : Opts) (ms : Matches) (wc : ℕ) (w1 : List Warning) :
    Output × List Warning :=
  match o.output with
  | .str out =>
    if containsCI out "matches" then
      (.matched (doMatches ms o.sortBy wc o.places o.encoding), w1)
    else if containsCI out "full" then (.undefR, w1)
    else
      (.vals (doLex ms o.places o.encoding wc),
       w1 ++ warnIf (!(containsCI out "lex") && jsGt o.logs 1)
         (.invalidOutput out))
  | _ => (.exnR, w1)

/-- The scoring steps on a successful token list (src/index.js lines
131-179): build the token pool, count, match, and dispatch on the output
option. -/
def scoreToks (env : Env) (lex : Lexicon) (o : Opts) (w0 : List Warning)
    (s : String) (toks : List String) : Output × List Warning :=
  dispatchOut o
    (getMatches (itemCount (pooled env o s toks).1) lex o.min o.max)
    (wcOf o toks (pooled env o s toks).1)
    (w0 ++ skipWarn o (pooled env o s toks).2)

/-- The scoring pipeline after the input has been prepared (src/index.js
lines 124-179): tokenize, then run the token-level steps; a failed
tokenization returns null. -/
def scoreStr (env : Env) (lex : Lexicon) (o : Opts) (w0 : List Warning)
    (s : String) : Output × List Warning :=
  match env.tok s with
  | none => (.nullR, w0 ++ warnIf (jsGt o.logs 1) .noTokens)
  | some toks => scoreToks env lex o w0 s toks

/-- The affectimo entry point of src/index.js lines 77-180: default the
options (mutating the caller object), return null on a falsy input, and
otherwise prepare the string and run the scoring pipeline.  The result is
paired with the list of warnings logged during the call. -/
def affectimo (env : Env) (lex : Lexicon) (strV : JSVal) (opts : Opts) :
    Output × List Warning :=
  if jsTruthy strV then
    scoreStr env lex (normalizeOpts opts).1 (normalizeOpts opts).2
      (prepared env (normalizeOpts opts).1 strV)
  else
    (.nullR, (normalizeOpts opts).2 ++
      warnIf (jsGt (normalizeOpts opts).1.logs 1) .noString)

/-- Split a character list into space-separated words (concrete tokenizer
used to instantiate the abstract collaborator in witnesses). -/
def splitWords (l : List Char) : List (List Char) :=
  let step := fun (c : Char) (acc : List (List Char) × List Char) =>
    if isWS c then
      (if acc.2 = [] then acc.1 else acc.2 :: acc.1, [])
  else (acc.1, c :: acc.2)
  let r := l.foldr step ([], [])
  if r.2 = [] then r.1 else r.2 :: r.1

/-- Concrete word tokens of a string. -/
def tokensOf (s : String) : List String := (splitWords s.data).map String.mk

/-- Concrete tokenizer: like happynodetokenizer it reports failure (null)
when no token is found. -/
def testTok (s : String) : Option (List String) :=
  match tokensOf s with
  | [] => none
  | l => some l

/-- Space-join a list of words. -/
def joinSpace (l : List String) : String :=
  String.mk ((l.map String.data).intersperse [' '] |>.flatten)

/-- Concrete contiguous n-gram windows of a token list. -/
def windowsJoin (n : ℕ) (l : List String) : List String :=
  (List.range (l.length + 1 - n)).map (fun i => joinSpace ((l.drop i).take n))

/-- Concrete n-gram generator for witnesses, defined for positive integer
orders (the only ones the engine passes on). -/
def testNgrams (s : String) (v : JSVal) : List String :=
  match jsToNumber v with
  | .fin q => if q.den = 1 && 0 < q.num then windowsJoin q.num.toNat (tokensOf s) else []
  | _ => []

/-- Concrete environment for witnesses: identity dialect translation. -/
def testEnv : Env := ⟨testTok, id, testNgrams⟩

/-- A two-term test lexicon. -/
def testLex : Lexicon := ⟨[("good", 1 / 2)], [("day", 3 / 10)]⟩

/-- The empty lexicon, in which no input has any match. -/
def emptyLex : Lexicon := ⟨[], []⟩

/-- Environment whose tokenizer always fails, exercising the no-tokens
path. -/
def noTokEnv : Env := ⟨fun _ => none, id, testNgrams⟩

/-- Environment with a visible dialect translation, to observe whether the
uk2us pass ran. -/
def gbEnv : Env := ⟨testTok, fun _ => "translated", testNgrams⟩


/-- The fully defaulted options produced by normalizeOpts on an empty
options object. -/
def defaultOpts : Opts :=
  { encoding := .str "US", locale := .num (.fin 3), logs := .num (.fin 3),
    suppressLog := .undef, max := .num .posInf, min := .num .negInf,
    nGrams := .arr [.num (.fin 2), .num (.fin 3)], output := .str "lex",
    places := .num (.fin 9), sortBy := .str "freq", wcGrams := .boolean false }


/-- Recognizer for the score-values output shape. -/
def outIsVals : Output → Bool
  | .vals _ => true
  | _ => false

/-- The result of affectimo when the default (lex) branch of the output
dispatch is taken: only the aggregated score values are returned, and a
warning is appended exactly when the output string does not contain lex
and the logs level exceeds 1. -/
theorem affectimo_vals_branch (env : Env) (lex : Lexicon) (strV : JSVal)
    (opts : Opts) (out : String) (toks : List String)
    (htr : jsTruthy strV = true)
    (hout : (normalizeOpts opts).1.output = .str out)
    (hm : containsCI out "matches" = false)
    (hf : containsCI out "full" = false)
    (htok : env.tok (prepared env (normalizeOpts opts).1 strV) = some toks) :
    affectimo env lex strV opts =
      (.vals (doLex
          (getMatches
            (itemCount
              (pooled env (normalizeOpts opts).1
                (prepared env (normalizeOpts opts).1 strV) toks).1)
            lex (normalizeOpts opts).1.min (normalizeOpts opts).1.max)
          (normalizeOpts opts).1.places (normalizeOpts opts).1.encoding
          (wcOf (normalizeOpts opts).1 toks
            (pooled env (normalizeOpts opts).1
              (prepared env (normalizeOpts opts).1 strV) toks).1)),
       ((normalizeOpts opts).2 ++
          skipWarn (normalizeOpts opts).1
            (pooled env (normalizeOpts opts).1
              (prepared env (normalizeOpts opts).1 strV) toks).2) ++
         warnIf (!(containsCI out "lex") && jsGt (normalizeOpts opts).1.logs 1)
           (.invalidOutput out)) := by
  simp [affectimo, htr, scoreStr, htok, scoreToks, dispatchOut, hout, hm, hf]

/-- C1: the claim says that with output set to full, score returns an
object combining the Match Formatter output and the score values under two
keys.  The code does not: the full branch of src/index.js lines 158-171
runs async.parallel but never returns its result from affectimo, so the
call evaluates to undefined.  This theorem evaluates the model at a
scoring input with output full and observes the undefined result. -/
theorem c1_output_full_returns_undefined :
    (affectimo testEnv testLex (.str "good day") { output := .str "full" }).1
      = .undefR := by decide

/-- C2: score returns null on a falsy input value (empty or absent
string), and on a tokenizer failure, for every environment, lexicon and
configuration; in particular the empty string always yields null. -/
theorem c2_null_on_empty_or_untokenizable (env : Env) (lex : Lexicon)
    (strV : JSVal) (opts : Opts) :
    (jsTruthy strV = false → (affectimo env lex strV opts).1 = .nullR)
    ∧ (env.tok (prepared env (normalizeOpts opts).1 strV) = none →
        (affectimo env lex strV opts).1 = .nullR)
    ∧ (affectimo env lex (.str "") opts).1 = .nullR := by
  refine ⟨fun h => by simp [affectimo, h], fun h => ?_, by simp [affectimo, jsTruthy]⟩
  by_cases htr : jsTruthy strV <;> simp [affectimo, htr, scoreStr, h]

/-- C2 witness: the empty string and an untokenizable input both return
null on concrete data. -/
theorem c2_null_witness :
    (affectimo testEnv testLex (.str "") {}).1 = .nullR
    ∧ (affectimo noTokEnv testLex (.str "hello") {}).1 = .nullR :=
  ⟨(c2_null_on_empty_or_untokenizable testEnv testLex (.str "") {}).2.2,
   (c2_null_on_empty_or_untokenizable noTokEnv testLex (.str "hello") {}).2.1 rfl⟩

/-- C10: a falsy non-string input (the number 0, false, NaN) yields null
because the truthiness check of src/index.js line 113 runs before the
string coercion of line 118, even though the string representation of 0 is
the non-empty (hence truthy) string 0. -/
theorem c10_falsy_nonstring_null (env : Env) (lex : Lexicon) (opts : Opts) :
    (affectimo env lex (.num (.fin 0)) opts).1 = .nullR
    ∧ (affectimo env lex (.boolean false) opts).1 = .nullR
    ∧ (affectimo env lex (.num .nan) opts).1 = .nullR
    ∧ jsToString (.num (.fin 0)) = "0"
    ∧ jsTruthy (.str (jsToString (.num (.fin 0)))) = true := by
  refine ⟨?_, ?_, ?_, by decide, by decide⟩ <;> simp [affectimo, jsTruthy]

/-- C5: the claim says an omitted encoding option aggregates with the
binary encoding, ignoring occurrence counts and wordcount.  Line 79 of
src/index.js instead defaults encoding to the string US (a locale value),
which the calcLex encoding test does not recognise as binary, so the
frequency formula runs: on the input good good day against a lexicon in
which good has weight one half, AFFECT aggregates (2/3) * (1/2) rather
than 1/2, and the result differs from the binary aggregate. -/
theorem c5_default_encoding_not_binary :
    (affectimo testEnv testLex (.str "good good day") {}).1
      = .vals ⟨roundPlaces 9 (2 / 3 * (1 / 2) + affectIntercept),
               roundPlaces 9 (1 / 3 * (3 / 10) + intensityIntercept)⟩
    ∧ (affectimo testEnv testLex (.str "good good day") {}).1
      ≠ .vals ⟨roundPlaces 9 (1 / 2 + affectIntercept),
               roundPlaces 9 (3 / 10 + intensityIntercept)⟩ := by
  have hno : normalizeOpts {} = (defaultOpts, []) := by decide
  have hprep : prepared testEnv defaultOpts (.str "good good day")
      = "good good day" := by decide
  have htok : testEnv.tok "good good day" = some ["good", "good", "day"] := by
    decide
  have hpool : pooled testEnv defaultOpts "good good day" ["good", "good", "day"]
      = (["good good day", "good good", "good day", "good", "good", "day"],
         none) := by
    with_unfolding_all decide
  have hitem :
      itemCount ["good good day", "good good", "good day", "good", "good", "day"]
      = [("good good day", 1), ("good good", 1), ("good day", 1), ("good", 2),
         ("day", 1)] := by decide
  have hmatch : getMatches
      [("good good day", 1), ("good good", 1), ("good day", 1), ("good", 2),
       ("day", 1)]
      testLex (.num .negInf) (.num .posInf)
      = ⟨[⟨"good", 2, 1 / 2⟩], [⟨"day", 1, 3 / 10⟩]⟩ := by
    with_unfolding_all decide
  have hc1 : containsCI "lex" "matches" = false := by decide
  have hc2 : containsCI "lex" "full" = false := by decide
  have hbe : binaryEnc (.str "US") = false := by decide
  have hpl : placesOf (.num (.fin 9)) = 9 := by with_unfolding_all decide
  have ho1 : defaultOpts.output = .str "lex" := rfl
  have ho2 : defaultOpts.min = .num .negInf := rfl
  have ho3 : defaultOpts.max = .num .posInf := rfl
  have ho4 : defaultOpts.logs = .num (.fin 3) := rfl
  have ho5 : defaultOpts.places = .num (.fin 9) := rfl
  have ho6 : defaultOpts.encoding = .str "US" := rfl
  have ho7 : defaultOpts.wcGrams = .boolean false := rfl
  constructor
  · simp [affectimo, scoreStr, scoreToks, hno, hprep, htok, hpool, hitem,
      hmatch, dispatchOut, hc1, hc2, wcOf, skipWarn, jsTruthy,
      ho1, ho2, ho3, ho4, ho5, ho6, ho7, doLex, calcLex, hbe, hpl]
  · simp [affectimo, scoreStr, scoreToks, hno, hprep, htok, hpool, hitem,
      hmatch, dispatchOut, hc1, hc2, wcOf, skipWarn, jsTruthy,
      ho1, ho2, ho3, ho4, ho5, ho6, ho7, doLex, calcLex, hbe, hpl,
      roundPlaces, roundHalfAway, affectIntercept, intensityIntercept]
    norm_num

/-- C6: the claim says the locale option selects the GB dialect
translation.  Line 80 of src/index.js assigns the logs value (or 3) to
locale, so the caller locale is discarded: with locale GB the normalized
locale is the number 3 and the translation never runs, while passing the
string GB as the logs option does trigger it.  The first conjunct shows
the normalized locale depends only on the logs option, for every
configuration. -/
theorem c6_locale_option_ignored (opts : Opts) :
    (normalizeOpts opts).1.locale = defVal opts.logs (.num (.fin 3))
    ∧ (normalizeOpts { locale := .str "GB" }).1.locale = .num (.fin 3)
    ∧ prepared gbEnv (normalizeOpts { locale := .str "GB" }).1 (.str "Colour")
        = "colour"
    ∧ (normalizeOpts { logs := .str "GB" }).1.locale = .str "GB"
    ∧ prepared gbEnv (normalizeOpts { logs := .str "GB" }).1 (.str "Colour")
        = "translated" := by
  exact ⟨rfl, by decide, by decide, by decide, by decide⟩

/-- C7: the claim says a coercible non-numeric min or max (such as a
numeric string) is used after coercion, with the infinity defaults only on
coercion failure.  The Number coercion of the string 0.5 succeeds (first
conjunct), yet lines 90-91 of src/index.js test typeof against number
after the coercion, which always holds, so the ternaries unconditionally
replace the coerced values with the infinities. -/
theorem c7_coerced_bounds_discarded :
    jsToNumber (.str "0.5") = .fin (1 / 2)
    ∧ (normalizeOpts { min := .str "0.5" }).1.min = .num .negInf
    ∧ (normalizeOpts { min := .str "0.5" }).1.max = .num .posInf
    ∧ (normalizeOpts { max := .str "2" }).1.max = .num .posInf := by
  refine ⟨?_, by decide, by decide, by decide⟩
  with_unfolding_all decide

/-- A defVal with a value that is not undefined returns the value. -/
theorem defVal_of_ne (v d : JSVal) (h : v ≠ .undef) : defVal v d = v := by
  cases v <;> simp_all [defVal]

/-- A defVal whose default is not undefined never returns undefined. -/
theorem defVal_ne_undef (v d : JSVal) (hd : d ≠ .undef) : defVal v d ≠ .undef := by
  cases v <;> simp_all [defVal]

/-- Number-typed values are not undefined. -/
theorem ne_undef_of_isNumV (v : JSVal) (h : isNumV v = true) : v ≠ .undef := by
  cases v <;> simp_all [isNumV]

/-- Array values are not undefined. -/
theorem ne_undef_of_isArrV (v : JSVal) (h : isArrV v = true) : v ≠ .undef := by
  cases v <;> simp_all [isArrV]

/-- The shape of an options object on which another pass of the
option-defaulting block writes nothing new. -/
def NormalizedOpts (o : Opts) : Prop :=
  o.encoding ≠ .undef ∧ o.locale = o.logs ∧ o.logs ≠ .undef ∧
  (jsTruthy o.suppressLog = true → o.logs = .num (.fin 0)) ∧
  isNumV o.max = true ∧ isNumV o.min = true ∧ isArrV o.nGrams = true ∧
  o.output ≠ .undef ∧ o.places ≠ .undef ∧ o.sortBy ≠ .undef ∧
  (o.wcGrams ≠ .undef)

/-- On a normalized options object the defaulting block is the identity
and logs nothing. -/
theorem normalizeOpts_fixed (o : Opts) (h : NormalizedOpts o) :
    normalizeOpts o = (o, []) := by
  obtain ⟨h1, h2, h3, h4, h5, h6, h7, h8, h9, h10, h11⟩ := h
  obtain ⟨e, lo, lg, sl, mx, mn, ng, ou, pl, sb, wg⟩ := o
  simp only at h1 h2 h3 h4 h5 h6 h7 h8 h9 h10 h11
  subst h2
  simp only [normalizeOpts, defVal_of_ne _ _ h1, defVal_of_ne _ _ h3,
    defVal_of_ne _ _ (ne_undef_of_isNumV _ h5), defVal_of_ne _ _ (ne_undef_of_isNumV _ h6),
    defVal_of_ne _ _ (ne_undef_of_isArrV _ h7), defVal_of_ne _ _ h8,
    defVal_of_ne _ _ h9, defVal_of_ne _ _ h10, defVal_of_ne _ _ h11,
    h5, h6, h7, Bool.and_self, Bool.not_true, if_false, Bool.false_eq_true,
    if_true]
  by_cases hsl : jsTruthy sl = true
  · simp [hsl, h4 hsl]
  · simp [hsl]

/-- The locale field of a normalized options object. -/
theorem normOut_locale (o : Opts) :
    (normalizeOpts o).1.locale = defVal o.logs (.num (.fin 3)) := rfl

/-- The logs field of a normalized options object. -/
theorem normOut_logs (o : Opts) :
    (normalizeOpts o).1.logs
      = (if jsTruthy o.suppressLog then .num (.fin 0)
         else defVal o.logs (.num (.fin 3))) := rfl

/-- The suppressLog field is never written by the defaulting block. -/
theorem normOut_suppress (o : Opts) :
    (normalizeOpts o).1.suppressLog = o.suppressLog := rfl

/-- The max bound is always number-typed after defaulting. -/
theorem normOut_isNum_max (o : Opts) : isNumV (normalizeOpts o).1.max = true := by
  simp only [normalizeOpts]
  split_ifs with hc hin <;> simp_all [isNumV]

/-- The min bound is always number-typed after defaulting. -/
theorem normOut_isNum_min (o : Opts) : isNumV (normalizeOpts o).1.min = true := by
  simp only [normalizeOpts]
  split_ifs with hc hin <;> simp_all [isNumV]

/-- The nGrams option is always an array after defaulting. -/
theorem normOut_isArr_nGrams (o : Opts) : isArrV (normalizeOpts o).1.nGrams = true := by
  simp only [normalizeOpts]
  split_ifs with ha <;> simp_all [isArrV, JSVal.arr]

/-- Two passes of the defaulting block reach a normalized object. -/
theorem normalized_after_two (o : Opts) :
    NormalizedOpts ((normalizeOpts (normalizeOpts o).1).1) := by
  have hlg1 : (normalizeOpts o).1.logs ≠ .undef := by
    rw [normOut_logs]
    split_ifs
    · simp
    · exact defVal_ne_undef _ _ (by simp)
  have hsl1 : jsTruthy o.suppressLog = true →
      (normalizeOpts o).1.logs = .num (.fin 0) := by
    rw [normOut_logs]
    intro h
    simp [h]
  refine ⟨?_, ?_, ?_, ?_, normOut_isNum_max _, normOut_isNum_min _,
    normOut_isArr_nGrams _, ?_, ?_, ?_, ?_⟩
  · show defVal (normalizeOpts o).1.encoding (.str "US") ≠ .undef
    exact defVal_ne_undef _ _ (by simp)
  · rw [normOut_locale ((normalizeOpts o).1), normOut_logs ((normalizeOpts o).1),
      normOut_suppress o, defVal_of_ne _ _ hlg1]
    split_ifs with h
    · exact hsl1 h
    · rfl
  · rw [normOut_logs ((normalizeOpts o).1)]
    split_ifs
    · simp
    · exact defVal_ne_undef _ _ (by simp)
  · rw [normOut_logs ((normalizeOpts o).1), normOut_suppress ((normalizeOpts o).1),
      normOut_suppress o]
    intro h
    simp [h]
  · show defVal (normalizeOpts o).1.output (.str "lex") ≠ .undef
    exact defVal_ne_undef _ _ (by simp)
  · show defVal (normalizeOpts o).1.places (.num (.fin 9)) ≠ .undef
    exact defVal_ne_undef _ _ (by simp)
  · show defVal (normalizeOpts o).1.sortBy (.str "freq") ≠ .undef
    exact defVal_ne_undef _ _ (by simp)
  · show defVal (normalizeOpts o).1.wcGrams (.boolean false) ≠ .undef
    exact defVal_ne_undef _ _ (by simp)

/-- C4 counterexample: the claim says the caller configuration is never
mutated, but passing a config holding only locale GB leaves the object
changed after the defaulting block (its locale is overwritten with 3 and
every other option is written in). -/
theorem c4_counterexample :
    (normalizeOpts { locale := .str "GB" }).1 ≠ ({ locale := .str "GB" } : Opts) := by
  decide

/-- C4 amended: the engine writes the defaulted option values back into
the caller configuration object (in particular locale is overwritten with
the logs value), so a call mutates the config; the mutation stabilizes
after two passes, a twice-normalized config being a fixed point that a
further call leaves unchanged and warning-free. -/
theorem c4_config_mutation_stabilizes (opts : Opts) :
    normalizeOpts (normalizeOpts (normalizeOpts opts).1).1
      = ((normalizeOpts (normalizeOpts opts).1).1, []) :=
  normalizeOpts_fixed _ (normalized_after_two opts)

/-- The places option holding a natural number selects that many decimal
places. -/
theorem placesOf_natCast (p : ℕ) : placesOf (.num (.fin (p : ℚ))) = p := by
  simp [placesOf, Rat.den_natCast, Rat.num_natCast]

/-- C3: with no match records in a category, that category aggregates to
exactly its fixed intercept (AFFECT 5.037104721, INTENSITY 2.399762631)
rounded to the configured places, under binary encoding: the aggregation
sum over an empty record list is 0 and only the intercept remains. -/
theorem c3_no_matches_gives_intercept (env : Env) (lex : Lexicon)
    (strV : JSVal) (opts : Opts) (p : ℕ) (toks : List String)
    (_henc : opts.encoding = .str "binary")
    (hout : opts.output = .undef)
    (hpl : opts.places = .num (.fin (p : ℚ)))
    (htr : jsTruthy strV = true)
    (htok : env.tok (prepared env (normalizeOpts opts).1 strV) = some toks) :
    ((getMatches
        (itemCount
          (pooled env (normalizeOpts opts).1
            (prepared env (normalizeOpts opts).1 strV) toks).1)
        lex (normalizeOpts opts).1.min (normalizeOpts opts).1.max).AFFECT = [] →
      ∃ v : LexVals, (affectimo env lex strV opts).1 = .vals v
        ∧ v.AFFECT = roundPlaces p affectIntercept)
    ∧ ((getMatches
        (itemCount
          (pooled env (normalizeOpts opts).1
            (prepared env (normalizeOpts opts).1 strV) toks).1)
        lex (normalizeOpts opts).1.min (normalizeOpts opts).1.max).INTENSITY = [] →
      ∃ v : LexVals, (affectimo env lex strV opts).1 = .vals v
        ∧ v.INTENSITY = roundPlaces p intensityIntercept) := by
  have hOut1 : (normalizeOpts opts).1.output = .str "lex" := by
    simp [normalizeOpts, hout, defVal]
  have hPl1 : (normalizeOpts opts).1.places = .num (.fin (p : ℚ)) := by
    simp [normalizeOpts, hpl, defVal]
  have hb := affectimo_vals_branch env lex strV opts "lex" toks htr hOut1
    (by decide) (by decide) htok
  constructor
  · intro hA
    refine ⟨_, by rw [hb], ?_⟩
    simp [doLex, hA, calcLex, hPl1, placesOf_natCast]
  · intro hI
    refine ⟨_, by rw [hb], ?_⟩
    simp [doLex, hI, calcLex, hPl1, placesOf_natCast]

/-- C3 witness: a two-word input against the empty lexicon with binary
encoding and nine places produces exactly the rounded intercepts. -/
theorem c3_no_matches_witness :
    (∃ v : LexVals,
      (affectimo testEnv emptyLex (.str "hello world")
        { encoding := .str "binary", places := .num (.fin ((9 : ℕ) : ℚ)) }).1
          = .vals v
      ∧ v.AFFECT = roundPlaces 9 affectIntercept)
    ∧ (∃ v : LexVals,
      (affectimo testEnv emptyLex (.str "hello world")
        { encoding := .str "binary", places := .num (.fin ((9 : ℕ) : ℚ)) }).1
          = .vals v
      ∧ v.INTENSITY = roundPlaces 9 intensityIntercept) :=
  ⟨(c3_no_matches_gives_intercept testEnv emptyLex (.str "hello world")
      { encoding := .str "binary", places := .num (.fin ((9 : ℕ) : ℚ)) } 9
      ["hello", "world"] rfl rfl rfl (by decide) (by decide)).1 rfl,
   (c3_no_matches_gives_intercept testEnv emptyLex (.str "hello world")
      { encoding := .str "binary", places := .num (.fin ((9 : ℕ) : ℚ)) } 9
      ["hello", "world"] rfl rfl rfl (by decide) (by decide)).2 rfl⟩

/-- Characterization of the async.each loop over n-gram orders: the final
token list prepends, in reverse request order, the n-grams of every order
that was not skipped, and the recorded error is the first skipped order
(later skips are swallowed by the once wrapper around the completion
callback). -/
theorem ngramLoop_spec (env : Env) (s : String) (wc : ℕ) (l : List JSVal)
    (t0 : List String) (e0 : Option Warning) :
    l.foldl (ngramStep env s wc) (t0, e0)
      = (((l.filter (fun n => !(jsLtWc wc n))).reverse.map
            (env.ngrams s)).flatten ++ t0,
         e0 <|> (l.find? (fun n => jsLtWc wc n)).map
            (fun n => Warning.nGramSkip n wc)) := by
  induction l generalizing t0 e0 with
  | nil => cases e0 <;> simp
  | cons n ns ih =>
    by_cases h : jsLtWc wc n = true
    · rw [List.foldl_cons]
      show ns.foldl (ngramStep env s wc) (ngramStep env s wc (t0, e0) n) = _
      rw [ngramStep, if_pos h, ih]
      cases e0 <;> simp [h, List.find?_cons_of_pos _ h]
    · rw [List.foldl_cons]
      show ns.foldl (ngramStep env s wc) (ngramStep env s wc (t0, e0) n) = _
      rw [ngramStep, if_neg h, ih]
      have hb : (!(jsLtWc wc n)) = true := by simp [h]
      simp [List.filter_cons, hb, List.find?_cons_of_neg _ h,
        List.reverse_cons, List.flatten_append, List.flatten_cons,
        List.flatten_nil, List.append_assoc]

/-- Defaulted options with nGrams requesting only order 5. -/
def opts5 : Opts := { defaultOpts with nGrams := .arr [.num (.fin 5)] }

/-- Defaulted options with an empty nGrams request (unigram-only pool). -/
def opts0 : Opts := { defaultOpts with nGrams := .arr [] }

/-- C8 counterexample: the claim promises a per-order warning for every
skipped order, but on a 3-word input with nGrams [5, 6] both orders are
skipped while only the first skip (order 5) is logged; the order 6 skip
produces no warning because async wraps the completion callback in once. -/
theorem c8_counterexample :
    ((3 : ℕ) < 6)
    ∧ Warning.nGramSkip (.num (.fin 5)) 3
        ∈ (affectimo testEnv testLex (.str "one two three")
            { nGrams := .arr [.num (.fin 5), .num (.fin 6)] }).2
    ∧ Warning.nGramSkip (.num (.fin 6)) 3
        ∉ (affectimo testEnv testLex (.str "one two three")
            { nGrams := .arr [.num (.fin 5), .num (.fin 6)] }).2 := by
  refine ⟨by decide, ?_, ?_⟩ <;> with_unfolding_all decide

/-- C8 amended: every requested order n with wordcount below n is skipped
non-fatally and every remaining order is still generated and merged into
the token pool before matching (first two conjuncts, for every
environment and order list); only the first skipped order is recorded for
warning.  In particular nGrams [5] on a 3-word input yields exactly the
unigram-only score, a values object carrying both categories. -/
theorem c8_skipped_orders_merge (env : Env) (s : String) (wc : ℕ)
    (l : List JSVal) (toks : List String) :
    ((ngramLoop env s wc l toks).1
      = ((l.filter (fun n => !(jsLtWc wc n))).reverse.map
          (env.ngrams s)).flatten ++ toks)
    ∧ ((ngramLoop env s wc l toks).2
      = (l.find? (fun n => jsLtWc wc n)).map (fun n => Warning.nGramSkip n wc))
    ∧ ((affectimo testEnv testLex (.str "one two three")
          { nGrams := .arr [.num (.fin 5)] }).1
      = (affectimo testEnv testLex (.str "one two three")
          { nGrams := .arr [] }).1)
    ∧ (outIsVals (affectimo testEnv testLex (.str "one two three")
          { nGrams := .arr [.num (.fin 5)] }).1 = true) := by
  have hno5 : normalizeOpts { nGrams := .arr [.num (.fin 5)] } = (opts5, []) := by
    decide
  have hno0 : normalizeOpts { nGrams := .arr [] } = (opts0, []) := by decide
  have hprep5 : prepared testEnv opts5 (.str "one two three") = "one two three" := by
    decide
  have hprep0 : prepared testEnv opts0 (.str "one two three") = "one two three" := by
    decide
  have htok : testEnv.tok "one two three" = some ["one", "two", "three"] := by
    decide
  have hpool5 : pooled testEnv opts5 "one two three" ["one", "two", "three"]
      = (["one", "two", "three"], some (.nGramSkip (.num (.fin 5)) 3)) := by
    with_unfolding_all decide
  have hpool0 : pooled testEnv opts0 "one two three" ["one", "two", "three"]
      = (["one", "two", "three"], none) := by decide
  have hitem : itemCount ["one", "two", "three"]
      = [("one", 1), ("two", 1), ("three", 1)] := by decide
  have hmatch : getMatches [("one", 1), ("two", 1), ("three", 1)] testLex
      (.num .negInf) (.num .posInf) = ⟨[], []⟩ := by
    with_unfolding_all decide
  have hc1 : containsCI "lex" "matches" = false := by decide
  have hc2 : containsCI "lex" "full" = false := by decide
  have ho5a : opts5.output = .str "lex" := rfl
  have ho5b : opts5.min = .num .negInf := rfl
  have ho5c : opts5.max = .num .posInf := rfl
  have ho5d : opts5.logs = .num (.fin 3) := rfl
  have ho5e : opts5.places = .num (.fin 9) := rfl
  have ho5f : opts5.encoding = .str "US" := rfl
  have ho5g : opts5.wcGrams = .boolean false := rfl
  have ho0a : opts0.output = .str "lex" := rfl
  have ho0b : opts0.min = .num .negInf := rfl
  have ho0c : opts0.max = .num .posInf := rfl
  have ho0d : opts0.logs = .num (.fin 3) := rfl
  have ho0e : opts0.places = .num (.fin 9) := rfl
  have ho0f : opts0.encoding = .str "US" := rfl
  have ho0g : opts0.wcGrams = .boolean false := rfl
  have hA : (affectimo testEnv testLex (.str "one two three")
      { nGrams := .arr [.num (.fin 5)] }).1
      = .vals (doLex ⟨[], []⟩ (.num (.fin 9)) (.str "US") 3) := by
    simp [affectimo, scoreStr, scoreToks, hno5, hprep5, htok, hpool5, hitem,
      hmatch, dispatchOut, hc1, hc2, wcOf, skipWarn, jsTruthy,
      ho5a, ho5b, ho5c, ho5d, ho5e, ho5f, ho5g]
  have hB : (affectimo testEnv testLex (.str "one two three")
      { nGrams := .arr [] }).1
      = .vals (doLex ⟨[], []⟩ (.num (.fin 9)) (.str "US") 3) := by
    simp [affectimo, scoreStr, scoreToks, hno0, hprep0, htok, hpool0, hitem,
      hmatch, dispatchOut, hc1, hc2, wcOf, skipWarn, jsTruthy,
      ho0a, ho0b, ho0c, ho0d, ho0e, ho0f, ho0g]
  refine ⟨?_, ?_, ?_, ?_⟩
  · rw [ngramLoop, ngramLoop_spec]
  · rw [ngramLoop, ngramLoop_spec]
    cases l.find? (fun n => jsLtWc wc n) <;> simp
  · rw [hA, hB]
  · rw [hA]
    rfl

/-- The only warning the defaulting block can log is the non-array nGrams
warning. -/
theorem normalizeOpts_warnings (o : Opts) (w : Warning)
    (h : w ∈ (normalizeOpts o).2) : w = .nGramsNotArray := by
  simp only [normalizeOpts, warnIf] at h
  split_ifs at h <;> simp_all

/-- The only error the n-gram loop can record is a skipped order. -/
theorem pooled_err (env : Env) (o : Opts) (s : String) (toks : List String)
    (w : Warning) (h : (pooled env o s toks).2 = some w) :
    ∃ n wc, w = .nGramSkip n wc := by
  unfold pooled at h
  cases hng : o.nGrams <;> rw [hng] at h <;> simp at h
  case arrV l =>
    rw [ngramLoop, ngramLoop_spec] at h
    simp only [Option.none_orElse, Option.map_eq_some'] at h
    obtain ⟨n, _, rfl⟩ := h
    exact ⟨n, toks.length, rfl⟩

/-- Membership in a conditional singleton warning list. -/
theorem mem_warnIf (b : Bool) (w : Warning) : w ∈ warnIf b w ↔ b = true := by
  cases b <;> simp [warnIf]

/-- C9 counterexample: the claim says every output string other than
matches and full returns only the score values, but the dispatch uses
substring regex matching, so the string mismatches (which is neither of
the two mode names) takes the matches branch and returns the formatted
matches, not a values object. -/
theorem c9_counterexample :
    ("mismatches" ≠ "matches")
    ∧ ("mismatches" ≠ "full")
    ∧ outIsVals (affectimo testEnv testLex (.str "good day")
        { output := .str "mismatches" }).1 = false := by
  refine ⟨by decide, by decide, ?_⟩
  with_unfolding_all decide

/-- C9 amended: for every output string that does not contain matches or
full (case-insensitively), score returns only the aggregated score values,
and the invalid-output warning is emitted exactly when the string also
does not contain lex and the logs level exceeds 1. -/
theorem c9_default_branch (env : Env) (lex : Lexicon) (strV : JSVal)
    (opts : Opts) (out : String) (toks : List String)
    (hout : opts.output = .str out)
    (hm : containsCI out "matches" = false)
    (hf : containsCI out "full" = false)
    (htr : jsTruthy strV = true)
    (htok : env.tok (prepared env (normalizeOpts opts).1 strV) = some toks) :
    ((affectimo env lex strV opts).1
      = .vals (doLex
          (getMatches
            (itemCount
              (pooled env (normalizeOpts opts).1
                (prepared env (normalizeOpts opts).1 strV) toks).1)
            lex (normalizeOpts opts).1.min (normalizeOpts opts).1.max)
          (normalizeOpts opts).1.places (normalizeOpts opts).1.encoding
          (wcOf (normalizeOpts opts).1 toks
            (pooled env (normalizeOpts opts).1
              (prepared env (normalizeOpts opts).1 strV) toks).1)))
    ∧ (Warning.invalidOutput out ∈ (affectimo env lex strV opts).2
        ↔ (containsCI out "lex" = false
            ∧ jsGt (normalizeOpts opts).1.logs 1 = true)) := by
  have hOut1 : (normalizeOpts opts).1.output = .str out := by
    simp [normalizeOpts, hout, defVal]
  have hb := affectimo_vals_branch env lex strV opts out toks htr hOut1 hm hf htok
  constructor
  · rw [hb]
  · rw [hb]
    simp only [List.mem_append]
    constructor
    · intro h
      rcases h with (h | h) | h
      · exact absurd (normalizeOpts_warnings _ _ h) (by simp)
      · rcases hsw : (pooled env (normalizeOpts opts).1
            (prepared env (normalizeOpts opts).1 strV) toks).2 with _ | w
        · rw [hsw] at h
          simp [skipWarn] at h
        · rw [hsw] at h
          obtain ⟨n, wc, rfl⟩ := pooled_err _ _ _ _ _ hsw
          simp [skipWarn, warnIf] at h
      · rw [mem_warnIf] at h
        simpa using h
    · intro h
      refine Or.inr ?_
      rw [mem_warnIf]
      simp [h.1, h.2]

/-- C9 witness: with the unrecognized output string banana on a scoring
input, the values branch is taken and the warning is emitted (banana does
not contain lex and the default logs level is 3). -/
theorem c9_default_branch_witness :
    ((affectimo testEnv testLex (.str "good day")
        { output := .str "banana" }).1
      = .vals (doLex
          (getMatches
            (itemCount
              (pooled testEnv (normalizeOpts { output := .str "banana" }).1
                (prepared testEnv (normalizeOpts { output := .str "banana" }).1
                  (.str "good day")) ["good", "day"]).1)
            testLex (normalizeOpts { output := .str "banana" }).1.min
            (normalizeOpts { output := .str "banana" }).1.max)
          (normalizeOpts { output := .str "banana" }).1.places
          (normalizeOpts { output := .str "banana" }).1.encoding
          (wcOf (normalizeOpts { output := .str "banana" }).1 ["good", "day"]
            (pooled testEnv (normalizeOpts { output := .str "banana" }).1
              (prepared testEnv (normalizeOpts { output := .str "banana" }).1
                (.str "good day")) ["good", "day"]).1)))
    ∧ (Warning.invalidOutput "banana"
        ∈ (affectimo testEnv testLex (.str "good day")
            { output := .str "banana" }).2
        ↔ (containsCI "banana" "lex" = false
            ∧ jsGt (normalizeOpts { output := .str "banana" }).1.logs 1 = true)) :=
  c9_default_branch testEnv testLex (.str "good day")
    { output := .str "banana" } "banana" ["good", "day"]
    rfl (by decide) (by decide) (by decide) (by decide)
